import Mathlib

/-!
Shallow embedding of the `dubins_path` crate (`src/lib.rs`) over the real
numbers, together with theorems settling the specification claims.

The crate computes Dubins paths from the canonical start configuration
(origin, heading along the positive y-axis) to a goal configuration
(`end_point`, `end_angle`), for a turning radius `radius`.

Modelling conventions:
- `f64` values are modelled by `ℝ`; `euclid::Angle` stores plain radians and
  is modelled by `ℝ` as well.
- the `f64` remainder `%` truncates towards zero; `rustRem` models it.
- the composite `(y / x).atan()` is modelled by `atanDiv`: IEEE division
  yields `±∞` for `y / 0` with `y ≠ 0` and `atan` maps `±∞` to `±(π/2)`
  (the crate's own unit tests rely on this at vertical tangents); the
  indeterminate `0/0` case (NaN in IEEE) is modelled as `0` and no theorem
  below depends on it.
- `euclid::Trig::fast_atan2` (used by `angle_from_x_axis` and `angle_to`)
  is modelled by the exact two-argument arctangent `atan2`.
- `Result<Self, Error>` is modelled by `Except DubinsError`; the `.unwrap()`
  calls of the source are modelled by `unwrapCSC`, whose error branch (a
  panic in the source) returns the marker value `panicRoute`.
-/

namespace Dubins

open Real

/-- 2D point, modelling `euclid::Point2D` (`Point<T>` in the source). -/
structure Point where
  x : ℝ
  y : ℝ

/-- 2D vector, modelling `euclid::Vector2D` (`Vector<T>` in the source). -/
structure Vec where
  x : ℝ
  y : ℝ

/-- The error enum of the source (`Error`, lib.rs lines 42-48). -/
inductive DubinsError where
  | circlesTooClose
  | circlesTooFarApart
deriving DecidableEq

/-- `StraightPath<T>`: a vector with an origin (lib.rs lines 50-55). -/
structure StraightPath where
  origin : Point
  vector : Vec

/-- `CirclePath<T>`: circle plus sweep angle (lib.rs lines 65-82). -/
structure CirclePath where
  center : Point
  radius : ℝ
  angle : ℝ

/-- `RouteCSC<T>`: start circle, tangent straight, end circle
(lib.rs lines 116-134). The source field `end` is a Lean keyword and is
called `finish` here. -/
structure RouteCSC where
  start : CirclePath
  tangent : StraightPath
  finish : CirclePath

/-- `RouteCCC<T>`: three circles (lib.rs lines 136-154). -/
structure RouteCCC where
  start : CirclePath
  middle : CirclePath
  finish : CirclePath

/-- `Path<T>`: tagged union over the two route kinds (lib.rs lines 156-172). -/
inductive Path where
  | CSC (route : RouteCSC)
  | CCC (route : RouteCCC)

/-- Truncation towards zero, as used by the `f64` remainder operator. -/
noncomputable def rustTrunc (x : ℝ) : ℝ :=
  if 0 ≤ x then (⌊x⌋ : ℝ) else (⌈x⌉ : ℝ)

/-- The `f64` remainder `x % y` (sign of the dividend, truncated quotient). -/
noncomputable def rustRem (x y : ℝ) : ℝ :=
  x - y * rustTrunc (x / y)

/-- `euclid::Angle::positive`: the equivalent angle in `[0, 2π)`, computed as
`radians % 2π`, adding `2π` if the remainder is negative. -/
noncomputable def positive (a : ℝ) : ℝ :=
  let r := rustRem a (2 * π)
  if r < 0 then r + 2 * π else r

/-- Models the `f64` computation `(y / x).atan()` of the source. IEEE
division yields `±∞` for `y / 0` with `y ≠ 0`, and `atan` maps `±∞` to
`±(π/2)`; the `0/0` case (NaN in IEEE) is modelled as `0`. -/
noncomputable def atanDiv (y x : ℝ) : ℝ :=
  if x = 0 then (if 0 < y then π / 2 else if y < 0 then -(π / 2) else 0)
  else arctan (y / x)

/-- Two-argument arctangent, modelling `euclid::Trig::fast_atan2` exactly:
the angle of the vector `(x, y)` in `(-π, π]`. -/
noncomputable def atan2 (y x : ℝ) : ℝ :=
  if 0 < x then arctan (y / x)
  else if x < 0 then (if 0 ≤ y then arctan (y / x) + π else arctan (y / x) - π)
  else (if 0 < y then π / 2 else if y < 0 then -(π / 2) else 0)

/-- `Rotation2D::new(a).transform_vector(v)`: counter-clockwise rotation. -/
noncomputable def rotTransform (a : ℝ) (v : Vec) : Vec :=
  ⟨v.x * cos a - v.y * sin a, v.x * sin a + v.y * cos a⟩

/-- Point plus vector (`Point2D + Vector2D`). -/
def Point.addVec (p : Point) (v : Vec) : Point :=
  ⟨p.x + v.x, p.y + v.y⟩

/-- `euclid::Point2D::lerp(self, other, t) = (1-t)*self + t*other`. -/
def Point.lerp (p q : Point) (t : ℝ) : Point :=
  ⟨(1 - t) * p.x + t * q.x, (1 - t) * p.y + t * q.y⟩

/-- `euclid::Vector2D::length`. -/
noncomputable def Vec.length (v : Vec) : ℝ :=
  sqrt (v.x ^ 2 + v.y ^ 2)

/-- `Vector::from_angle_and_length(a, l) = (l·cos a, l·sin a)`. -/
noncomputable def fromAngleAndLength (a l : ℝ) : Vec :=
  ⟨l * cos a, l * sin a⟩

/-- `Vector::angle_from_x_axis`, i.e. `atan2(y, x)`. -/
noncomputable def Vec.angleFromXAxis (v : Vec) : ℝ :=
  atan2 v.y v.x

/-- `Vector::angle_to(other) = atan2(self × other, self ⬝ other)`. -/
noncomputable def Vec.angleTo (v w : Vec) : ℝ :=
  atan2 (v.x * w.y - v.y * w.x) (v.x * w.x + v.y * w.y)

/-- The distance between two circle centers as the source computes it:
`((b.x - a.x)² + (b.y - a.y)²).sqrt()` — the Euclidean distance. -/
noncomputable def centerDist (a b : Point) : ℝ :=
  sqrt ((b.x - a.x) ^ 2 + (b.y - a.y) ^ 2)

/-- End circle center for a right end turn:
`end_point + Rotation::new(end_angle).inverse().transform_vector((radius, 0))`
(lib.rs lines 195-198, 394-397, 516-519). -/
noncomputable def endCenterRight (radius : ℝ) (endPoint : Point) (endAngle : ℝ) : Point :=
  endPoint.addVec (rotTransform (-endAngle) ⟨radius, 0⟩)

/-- End circle center for a left end turn:
`end_point + Rotation::new(π - end_angle).transform_vector((radius, 0))`
(lib.rs lines 259-261, 322-324, 598-600). -/
noncomputable def endCenterLeft (radius : ℝ) (endPoint : Point) (endAngle : ℝ) : Point :=
  endPoint.addVec (rotTransform (π - endAngle) ⟨radius, 0⟩)

/-- `CirclePath::get_length`: sweep angle times radius (lib.rs lines 97-99). -/
noncomputable def CirclePath.getLength (c : CirclePath) : ℝ :=
  c.angle * c.radius

/-- Body of `RouteCSC::rsr` (lib.rs lines 188-249); `rsr` always wraps this
in `Ok`. -/
noncomputable def rsrRoute (radius : ℝ) (endPoint : Point) (endAngle : ℝ) : RouteCSC :=
  let startCenter : Point := ⟨radius, 0⟩
  let endCenter := endCenterRight radius endPoint endAngle
  let tangentAngle0 := atanDiv (endCenter.y - startCenter.y) (endCenter.x - startCenter.x)
  let tangentAngle :=
    if endCenter.x < startCenter.x then tangentAngle0 + π else tangentAngle0
  let tangentMagnitude :=
    sqrt ((endCenter.x - startCenter.x) ^ 2 + (endCenter.y - startCenter.y) ^ 2)
  let startArc := positive (π / 2 - tangentAngle)
  let tangentOrigin := startCenter.addVec (rotTransform (π - endAngle) ⟨radius, 0⟩)
  let endArc := positive (endAngle - startArc)
  { start := ⟨startCenter, radius, startArc⟩
    tangent := ⟨tangentOrigin, fromAngleAndLength tangentAngle tangentMagnitude⟩
    finish := ⟨endCenter, radius, endArc⟩ }

/-- `RouteCSC::rsr`: never fails (lib.rs lines 188-249). -/
noncomputable def RouteCSC.rsr (radius : ℝ) (endPoint : Point) (endAngle : ℝ) :
    Except DubinsError RouteCSC :=
  .ok (rsrRoute radius endPoint endAngle)

/-- Body of `RouteCSC::lsl` (lib.rs lines 252-312); `lsl` always wraps this
in `Ok`. -/
noncomputable def lslRoute (radius : ℝ) (endPoint : Point) (endAngle : ℝ) : RouteCSC :=
  let startCenter : Point := ⟨-radius, 0⟩
  let endCenter := endCenterLeft radius endPoint endAngle
  let tangentAngle0 :=
    positive (atanDiv (endCenter.y - startCenter.y) (endCenter.x - startCenter.x))
  let tangentAngle :=
    if endCenter.x < startCenter.x then positive (tangentAngle0 + π) else tangentAngle0
  let tangentMagnitude :=
    sqrt (|endCenter.x - startCenter.x| ^ 2 + |endCenter.y - startCenter.y| ^ 2)
  let startArc := positive (tangentAngle - π / 2)
  let tangentOrigin := startCenter.addVec (rotTransform startArc ⟨radius, 0⟩)
  let endArc := positive (endAngle - startArc)
  { start := ⟨startCenter, radius, startArc⟩
    tangent := ⟨tangentOrigin, fromAngleAndLength tangentAngle tangentMagnitude⟩
    finish := ⟨endCenter, radius, endArc⟩ }

/-- `RouteCSC::lsl`: never fails (lib.rs lines 252-312). -/
noncomputable def RouteCSC.lsl (radius : ℝ) (endPoint : Point) (endAngle : ℝ) :
    Except DubinsError RouteCSC :=
  .ok (lslRoute radius endPoint endAngle)

/-- Body of `RouteCSC::rsl` after the feasibility check
(lib.rs lines 334-383). -/
noncomputable def rslRoute (radius : ℝ) (endPoint : Point) (endAngle : ℝ) : RouteCSC :=
  let startCenter : Point := ⟨radius, 0⟩
  let endCenter := endCenterLeft radius endPoint endAngle
  let tangentMagnitude :=
    sqrt ((endCenter.x - startCenter.x) ^ 2 + (endCenter.y - startCenter.y) ^ 2
      - (radius * 2) ^ 2)
  let tangentMiddle := endCenter.lerp startCenter (1 / 2)
  let tangentAngle0 :=
    atanDiv (endCenter.y - tangentMiddle.y) (endCenter.x - tangentMiddle.x)
      - atanDiv (radius * 2) tangentMagnitude
  let tangentAngle :=
    if endCenter.x < startCenter.x then tangentAngle0 + π else tangentAngle0
  let startArc := positive (π / 2 - tangentAngle)
  let tangentOrigin := startCenter.addVec (rotTransform (π - startArc) ⟨radius, 0⟩)
  let endArc := positive ((π / 2 - endAngle) - tangentAngle)
  { start := ⟨startCenter, radius, startArc⟩
    tangent := ⟨tangentOrigin, fromAngleAndLength tangentAngle tangentMagnitude⟩
    finish := ⟨endCenter, radius, endArc⟩ }

/-- `RouteCSC::rsl` (lib.rs lines 315-384): fails with `CirclesTooClose`
when the center distance is below `radius * 2`. -/
noncomputable def RouteCSC.rsl (radius : ℝ) (endPoint : Point) (endAngle : ℝ) :
    Except DubinsError RouteCSC :=
  if centerDist ⟨radius, 0⟩ (endCenterLeft radius endPoint endAngle) < radius * 2 then
    .error .circlesTooClose
  else
    .ok (rslRoute radius endPoint endAngle)

/-- Body of `RouteCSC::lsr` after the feasibility check
(lib.rs lines 407-455). -/
noncomputable def lsrRoute (radius : ℝ) (endPoint : Point) (endAngle : ℝ) : RouteCSC :=
  let startCenter : Point := ⟨-radius, 0⟩
  let endCenter := endCenterRight radius endPoint endAngle
  let tangentMagnitude :=
    sqrt ((endCenter.x - startCenter.x) ^ 2 + (endCenter.y - startCenter.y) ^ 2
      - (radius * 2) ^ 2)
  let tangentMiddle := endCenter.lerp startCenter (1 / 2)
  let tangentAngle0 :=
    atanDiv (endCenter.y - tangentMiddle.y) (endCenter.x - tangentMiddle.x)
      + atanDiv (radius * 2) tangentMagnitude
  let tangentAngle :=
    if endCenter.x < startCenter.x then tangentAngle0 + π else tangentAngle0
  let startArc := positive (tangentAngle - π / 2)
  let tangentOrigin := startCenter.addVec (rotTransform startArc ⟨radius, 0⟩)
  let endArc := positive ((π / 2 - endAngle) - tangentAngle)
  { start := ⟨startCenter, radius, startArc⟩
    tangent := ⟨tangentOrigin, fromAngleAndLength tangentAngle tangentMagnitude⟩
    finish := ⟨endCenter, radius, endArc⟩ }

/-- `RouteCSC::lsr` (lib.rs lines 387-456): fails with `CirclesTooClose`
when the center distance is below `radius * 2`. -/
noncomputable def RouteCSC.lsr (radius : ℝ) (endPoint : Point) (endAngle : ℝ) :
    Except DubinsError RouteCSC :=
  if centerDist ⟨-radius, 0⟩ (endCenterRight radius endPoint endAngle) < radius * 2 then
    .error .circlesTooClose
  else
    .ok (lsrRoute radius endPoint endAngle)

/-- `RouteCSC::get_length` (lib.rs lines 459-461). -/
noncomputable def RouteCSC.getLength (r : RouteCSC) : ℝ :=
  r.start.getLength + r.tangent.vector.length + r.finish.getLength

/-- Marker value returned by the modelled `.unwrap()` on an error: in the
source this branch panics. -/
def panicRoute : RouteCSC :=
  ⟨⟨⟨0, 0⟩, 0, 0⟩, ⟨⟨0, 0⟩, ⟨0, 0⟩⟩, ⟨⟨0, 0⟩, 0, 0⟩⟩

/-- `.unwrap()` on a `Result<RouteCSC, Error>`. -/
def unwrapCSC (x : Except DubinsError RouteCSC) : RouteCSC :=
  match x with
  | .ok v => v
  | .error _ => panicRoute

/-- `RouteCSC::get_shortest` (lib.rs lines 464-492), translated verbatim:
the source invokes `Self::rsr` for all four candidates (lines 471-474). -/
noncomputable def RouteCSC.getShortest (radius : ℝ) (endPoint : Point) (endAngle : ℝ) :
    Except DubinsError RouteCSC :=
  let routeRsr := unwrapCSC (RouteCSC.rsr radius endPoint endAngle)
  let routeLsl := unwrapCSC (RouteCSC.rsr radius endPoint endAngle)
  let routeLsr := RouteCSC.rsr radius endPoint endAngle
  let routeRsl := RouteCSC.rsr radius endPoint endAngle
  let r1 := routeRsr
  let r2 := if routeLsl.getLength < r1.getLength then routeLsl else r1
  let r3 :=
    match routeLsr with
    | .ok v => if v.getLength < r2.getLength then v else r2
    | .error _ => r2
  let r4 :=
    match routeRsl with
    | .ok v => if v.getLength < r3.getLength then v else r3
    | .error _ => r3
  .ok r4

/-- Body of `RouteCCC::rlr` after the feasibility check
(lib.rs lines 529-587). -/
noncomputable def rlrRoute (radius : ℝ) (endPoint : Point) (endAngle : ℝ) : RouteCCC :=
  let startCenter : Point := ⟨radius, 0⟩
  let endCenter := endCenterRight radius endPoint endAngle
  let vSE : Vec := ⟨endCenter.x - startCenter.x, endCenter.y - startCenter.y⟩
  let vSMAngle := vSE.angleFromXAxis + arccos (vSE.length / (radius * 4))
  let vSM : Vec := ⟨radius * 2 * cos vSMAngle, radius * 2 * sin vSMAngle⟩
  let middleCenter : Point := ⟨startCenter.x + vSM.x, startCenter.y + vSM.y⟩
  let vME : Vec := ⟨endCenter.x - middleCenter.x, endCenter.y - middleCenter.y⟩
  let startArc := positive (π - vSM.angleFromXAxis)
  let middleArc := positive ((rotTransform π vSM).angleTo vME)
  let endArc := positive
    ((rotTransform π vME).angleTo ⟨endPoint.x - endCenter.x, endPoint.y - endCenter.y⟩)
  { start := ⟨startCenter, radius, startArc⟩
    middle := ⟨middleCenter, radius, middleArc⟩
    finish := ⟨endCenter, radius, endArc⟩ }

/-- `RouteCCC::rlr` (lib.rs lines 509-588): fails with `CirclesTooFarApart`
when the center distance exceeds `radius * 4`. -/
noncomputable def RouteCCC.rlr (radius : ℝ) (endPoint : Point) (endAngle : ℝ) :
    Except DubinsError RouteCCC :=
  if centerDist ⟨radius, 0⟩ (endCenterRight radius endPoint endAngle) > radius * 4 then
    .error .circlesTooFarApart
  else
    .ok (rlrRoute radius endPoint endAngle)

/-- Body of `RouteCCC::lrl` after the feasibility check
(lib.rs lines 610-664). -/
noncomputable def lrlRoute (radius : ℝ) (endPoint : Point) (endAngle : ℝ) : RouteCCC :=
  let startCenter : Point := ⟨-radius, 0⟩
  let endCenter := endCenterLeft radius endPoint endAngle
  let vSE : Vec := ⟨endCenter.x - startCenter.x, endCenter.y - startCenter.y⟩
  let vSMAngle := vSE.angleFromXAxis - arccos (vSE.length / (radius * 4))
  let vSM : Vec := ⟨radius * 2 * cos vSMAngle, radius * 2 * sin vSMAngle⟩
  let middleCenter : Point := ⟨startCenter.x + vSM.x, startCenter.y + vSM.y⟩
  let vME : Vec := ⟨endCenter.x - middleCenter.x, endCenter.y - middleCenter.y⟩
  let startArc := positive vSM.angleFromXAxis
  let middleArc := positive (vME.angleTo (rotTransform π vSM))
  let endArc := positive
    (Vec.angleTo ⟨endPoint.x - endCenter.x, endPoint.y - endCenter.y⟩ (rotTransform π vME))
  { start := ⟨startCenter, radius, startArc⟩
    middle := ⟨middleCenter, radius, middleArc⟩
    finish := ⟨endCenter, radius, endArc⟩ }

/-- `RouteCCC::lrl` (lib.rs lines 591-665): fails with `CirclesTooFarApart`
when the center distance exceeds `radius * 4`. -/
noncomputable def RouteCCC.lrl (radius : ℝ) (endPoint : Point) (endAngle : ℝ) :
    Except DubinsError RouteCCC :=
  if centerDist ⟨-radius, 0⟩ (endCenterLeft radius endPoint endAngle) > radius * 4 then
    .error .circlesTooFarApart
  else
    .ok (lrlRoute radius endPoint endAngle)

/-- `RouteCCC::get_length` (lib.rs lines 668-670). -/
noncomputable def RouteCCC.getLength (r : RouteCCC) : ℝ :=
  r.start.getLength + r.middle.getLength + r.finish.getLength

/-- `RouteCCC::get_shortest` (lib.rs lines 673-696). -/
noncomputable def RouteCCC.getShortest (radius : ℝ) (endPoint : Point) (endAngle : ℝ) :
    Except DubinsError RouteCCC :=
  match RouteCCC.rlr radius endPoint endAngle, RouteCCC.lrl radius endPoint endAngle with
  | .ok routeRlr, .ok routeLrl =>
      if routeRlr.getLength < routeLrl.getLength then .ok routeRlr else .ok routeLrl
  | .ok routeRlr, .error _ => .ok routeRlr
  | .error _, .ok routeLrl => .ok routeLrl
  | .error _, .error _ => .error .circlesTooFarApart

/-- Top-level `get_shortest` (lib.rs lines 700-723). -/
noncomputable def getShortest (radius : ℝ) (endPoint : Point) (endAngle : ℝ) : Path :=
  let routeCsc := unwrapCSC (RouteCSC.getShortest radius endPoint endAngle)
  match RouteCCC.getShortest radius endPoint endAngle with
  | .ok routeCcc =>
      if routeCcc.getLength < routeCsc.getLength then .CCC routeCcc else .CSC routeCsc
  | .error _ => .CSC routeCsc

/-! ## Helper lemmas -/

lemma two_pi_pos : (0 : ℝ) < 2 * π := by positivity

/-- `Angle::positive` always lands in `[0, 2π)`. -/
lemma positive_mem (a : ℝ) : 0 ≤ positive a ∧ positive a < 2 * π := by
  have h2 : (0 : ℝ) < 2 * π := two_pi_pos
  unfold positive rustRem rustTrunc
  have ha : a = 2 * π * (a / (2 * π)) := by field_simp
  by_cases h : 0 ≤ a / (2 * π)
  · rw [if_pos h]
    have hfr : a - 2 * π * (⌊a / (2 * π)⌋ : ℝ) = 2 * π * Int.fract (a / (2 * π)) := by
      rw [Int.fract]; nth_rewrite 1 [ha]; ring
    rw [hfr]
    have h0 : 0 ≤ 2 * π * Int.fract (a / (2 * π)) :=
      mul_nonneg h2.le (Int.fract_nonneg _)
    have h1 : 2 * π * Int.fract (a / (2 * π)) < 2 * π := by
      have := mul_lt_mul_of_pos_left (Int.fract_lt_one (a / (2 * π))) h2
      simpa using this
    rw [if_neg (not_lt.mpr h0)]
    exact ⟨h0, h1⟩
  · rw [if_neg h]
    have hle : a - 2 * π * (⌈a / (2 * π)⌉ : ℝ) ≤ 0 := by
      have h1 : a / (2 * π) ≤ (⌈a / (2 * π)⌉ : ℝ) := Int.le_ceil _
      have h3 : 2 * π * (a / (2 * π)) ≤ 2 * π * (⌈a / (2 * π)⌉ : ℝ) :=
        mul_le_mul_of_nonneg_left h1 h2.le
      nlinarith [ha]
    have hgt : -(2 * π) < a - 2 * π * (⌈a / (2 * π)⌉ : ℝ) := by
      have h1 : (⌈a / (2 * π)⌉ : ℝ) < a / (2 * π) + 1 := Int.ceil_lt_add_one _
      have h3 : 2 * π * (⌈a / (2 * π)⌉ : ℝ) < 2 * π * (a / (2 * π) + 1) :=
        mul_lt_mul_of_pos_left h1 h2
      nlinarith [ha]
    by_cases hneg : a - 2 * π * (⌈a / (2 * π)⌉ : ℝ) < 0
    · rw [if_pos hneg]
      constructor <;> nlinarith
    · rw [if_neg hneg]
      exact ⟨not_lt.mp hneg, lt_of_le_of_lt hle h2⟩

/-- `positive` is the identity on `[0, 2π)`. -/
lemma positive_eq_self {a : ℝ} (h0 : 0 ≤ a) (h1 : a < 2 * π) : positive a = a := by
  have h2 : (0 : ℝ) < 2 * π := two_pi_pos
  unfold positive rustRem rustTrunc
  have ht0 : 0 ≤ a / (2 * π) := div_nonneg h0 h2.le
  have ht1 : a / (2 * π) < 1 := (div_lt_one h2).mpr h1
  rw [if_pos ht0, Int.floor_eq_zero_iff.mpr ⟨ht0, ht1⟩]
  simp only [Int.cast_zero, mul_zero, sub_zero]
  rw [if_neg (not_lt.mpr h0)]

lemma positive_zero : positive 0 = 0 :=
  positive_eq_self le_rfl two_pi_pos

/-- `positive` adds `2π` on `(-2π, 0)`. -/
lemma positive_add_two_pi {a : ℝ} (h0 : -(2 * π) < a) (h1 : a < 0) :
    positive a = a + 2 * π := by
  have h2 : (0 : ℝ) < 2 * π := two_pi_pos
  unfold positive rustRem rustTrunc
  have ht1 : a / (2 * π) < 0 := div_neg_of_neg_of_pos h1 h2
  have ht0 : -1 < a / (2 * π) := by
    rw [show (-1 : ℝ) = -(2 * π) / (2 * π) by field_simp]
    exact div_lt_div_of_pos_right h0 h2
  rw [if_neg (not_le.mpr ht1), Int.ceil_eq_zero_iff.mpr ⟨ht0, ht1.le⟩]
  simp only [Int.cast_zero, mul_zero, sub_zero]
  rw [if_pos h1]

/-- `positive` subtracts `2π` on `[2π, 4π)`. -/
lemma positive_sub_two_pi {a : ℝ} (h0 : 2 * π ≤ a) (h1 : a < 4 * π) :
    positive a = a - 2 * π := by
  have h2 : (0 : ℝ) < 2 * π := two_pi_pos
  unfold positive rustRem rustTrunc
  have ht0 : 0 ≤ a / (2 * π) := div_nonneg (le_trans h2.le h0) h2.le
  have hfl : ⌊a / (2 * π)⌋ = 1 := by
    apply Int.floor_eq_iff.mpr
    constructor
    · push_cast
      rw [le_div_iff₀ h2]
      linarith
    · push_cast
      rw [div_lt_iff₀ h2]
      linarith
  rw [if_pos ht0, hfl]
  simp only [Int.cast_one, mul_one]
  rw [if_neg (not_lt.mpr (by linarith))]

lemma atanDiv_pos_zero {y : ℝ} (hy : 0 < y) : atanDiv y 0 = π / 2 := by
  simp [atanDiv, hy]

lemma atanDiv_of_ne {y x : ℝ} (hx : x ≠ 0) : atanDiv y x = arctan (y / x) := by
  simp [atanDiv, hx]

/-- `from_angle_and_length` builds a vector of the requested length. -/
lemma length_fromAngleAndLength (a : ℝ) {l : ℝ} (hl : 0 ≤ l) :
    (fromAngleAndLength a l).length = l := by
  simp only [fromAngleAndLength, Vec.length]
  have h : (l * cos a) ^ 2 + (l * sin a) ^ 2 = l ^ 2 := by
    have hs := sin_sq_add_cos_sq a
    nlinarith
  rw [h, Real.sqrt_sq hl]

lemma sqrt_one_add_div_sq {y x : ℝ} (hx : x ≠ 0) :
    sqrt (1 + (y / x) ^ 2) = sqrt (x ^ 2 + y ^ 2) / |x| := by
  have h1 : 1 + (y / x) ^ 2 = (x ^ 2 + y ^ 2) / x ^ 2 := by
    field_simp
  rw [h1, Real.sqrt_div (by positivity), Real.sqrt_sq_eq_abs]

/-- Cosine of the two-argument arctangent. -/
lemma cos_atan2 (y x : ℝ) (h : x ^ 2 + y ^ 2 ≠ 0) :
    cos (atan2 y x) = x / sqrt (x ^ 2 + y ^ 2) := by
  have hs : 0 < sqrt (x ^ 2 + y ^ 2) := by
    apply Real.sqrt_pos.mpr
    rcases lt_or_eq_of_le (by positivity : (0:ℝ) ≤ x ^ 2 + y ^ 2) with h1 | h1
    · exact h1
    · exact absurd h1.symm h
  unfold atan2
  split_ifs with hx1 hx2 hy1 hy2 hy3
  · rw [Real.cos_arctan, sqrt_one_add_div_sq (ne_of_gt hx1), abs_of_pos hx1]
    rw [one_div, inv_div]
  · rw [Real.cos_add, Real.cos_pi, Real.sin_pi, Real.cos_arctan,
      sqrt_one_add_div_sq (ne_of_lt hx2), abs_of_neg hx2]
    field_simp
  · rw [Real.cos_sub, Real.cos_pi, Real.sin_pi, Real.cos_arctan,
      sqrt_one_add_div_sq (ne_of_lt hx2), abs_of_neg hx2]
    field_simp
  · have hx0 : x = 0 := le_antisymm (not_lt.mp hx1) (not_lt.mp hx2)
    rw [Real.cos_pi_div_two, hx0, zero_div]
  · have hx0 : x = 0 := le_antisymm (not_lt.mp hx1) (not_lt.mp hx2)
    rw [Real.cos_neg, Real.cos_pi_div_two, hx0, zero_div]
  · have hx0 : x = 0 := le_antisymm (not_lt.mp hx1) (not_lt.mp hx2)
    have hy0 : y = 0 := le_antisymm (not_lt.mp hy2) (not_lt.mp hy3)
    exact absurd (by rw [hx0, hy0]; ring) h

/-- Sine of the two-argument arctangent. -/
lemma sin_atan2 (y x : ℝ) (h : x ^ 2 + y ^ 2 ≠ 0) :
    sin (atan2 y x) = y / sqrt (x ^ 2 + y ^ 2) := by
  have hs : 0 < sqrt (x ^ 2 + y ^ 2) := by
    apply Real.sqrt_pos.mpr
    rcases lt_or_eq_of_le (by positivity : (0:ℝ) ≤ x ^ 2 + y ^ 2) with h1 | h1
    · exact h1
    · exact absurd h1.symm h
  unfold atan2
  split_ifs with hx1 hx2 hy1 hy2 hy3
  · rw [Real.sin_arctan, sqrt_one_add_div_sq (ne_of_gt hx1), abs_of_pos hx1]
    rw [div_div, mul_comm, div_mul_cancel₀ _ (ne_of_gt hx1)]
  · rw [Real.sin_add, Real.cos_pi, Real.sin_pi, Real.sin_arctan,
      sqrt_one_add_div_sq (ne_of_lt hx2), abs_of_neg hx2]
    field_simp
    rw [mul_div_mul_right _ _ (ne_of_gt hs)]
    exact mul_div_cancel_right₀ y (ne_of_lt hx2)
  · rw [Real.sin_sub, Real.cos_pi, Real.sin_pi, Real.sin_arctan,
      sqrt_one_add_div_sq (ne_of_lt hx2), abs_of_neg hx2]
    field_simp
    rw [mul_div_mul_right _ _ (ne_of_gt hs)]
    exact mul_div_cancel_right₀ y (ne_of_lt hx2)
  · have hx0 : x = 0 := le_antisymm (not_lt.mp hx1) (not_lt.mp hx2)
    rw [Real.sin_pi_div_two, hx0]
    rw [show (0:ℝ)^2 + y^2 = y^2 by ring, Real.sqrt_sq_eq_abs, abs_of_pos hy2,
      div_self (ne_of_gt hy2)]
  · have hx0 : x = 0 := le_antisymm (not_lt.mp hx1) (not_lt.mp hx2)
    rw [Real.sin_neg, Real.sin_pi_div_two, hx0]
    rw [show (0:ℝ)^2 + y^2 = y^2 by ring, Real.sqrt_sq_eq_abs, abs_of_neg hy3]
    rw [div_neg, div_self (ne_of_lt hy3)]
  · have hx0 : x = 0 := le_antisymm (not_lt.mp hx1) (not_lt.mp hx2)
    have hy0 : y = 0 := le_antisymm (not_lt.mp hy2) (not_lt.mp hy3)
    exact absurd (by rw [hx0, hy0]; ring) h

/-- Observation helper: whether a builder result is `Ok`. -/
def isOkE {α : Type} (x : Except DubinsError α) : Bool :=
  match x with
  | .ok _ => true
  | .error _ => false

/-! ## Claim theorems -/

/-- Claim C2: for every radius > 0, goal point and goal heading, `rsl` and
`lsr` return `CirclesTooClose` if and only if the Euclidean distance
between the derived start and end circle centers is strictly less than
`2 × radius`; otherwise they return a `RouteCSC`. -/
theorem c2_rsl_lsr_error_iff (radius : ℝ) (endPoint : Point) (endAngle : ℝ)
    (hr : 0 < radius) :
    (RouteCSC.rsl radius endPoint endAngle = .error .circlesTooClose ↔
      centerDist ⟨radius, 0⟩ (endCenterLeft radius endPoint endAngle) < 2 * radius) ∧
    (¬ centerDist ⟨radius, 0⟩ (endCenterLeft radius endPoint endAngle) < 2 * radius →
      RouteCSC.rsl radius endPoint endAngle = .ok (rslRoute radius endPoint endAngle)) ∧
    (RouteCSC.lsr radius endPoint endAngle = .error .circlesTooClose ↔
      centerDist ⟨-radius, 0⟩ (endCenterRight radius endPoint endAngle) < 2 * radius) ∧
    (¬ centerDist ⟨-radius, 0⟩ (endCenterRight radius endPoint endAngle) < 2 * radius →
      RouteCSC.lsr radius endPoint endAngle = .ok (lsrRoute radius endPoint endAngle)) := by
  refine ⟨?_, ?_, ?_, ?_⟩
  · unfold RouteCSC.rsl
    rw [mul_comm 2 radius]
    split_ifs with h <;> simp [h]
  · unfold RouteCSC.rsl
    rw [mul_comm 2 radius]
    split_ifs with h <;> simp [h]
  · unfold RouteCSC.lsr
    rw [mul_comm 2 radius]
    split_ifs with h <;> simp [h]
  · unfold RouteCSC.lsr
    rw [mul_comm 2 radius]
    split_ifs with h <;> simp [h]

/-- Witness for C2 at radius 1, goal `(0, 0)`, heading 0. -/
theorem c2_witness :
    (0 : ℝ) < 1 ∧
    (RouteCSC.rsl 1 ⟨0, 0⟩ 0 = .error .circlesTooClose ↔
      centerDist ⟨1, 0⟩ (endCenterLeft 1 ⟨0, 0⟩ 0) < 2 * 1) :=
  ⟨by norm_num, (c2_rsl_lsr_error_iff 1 ⟨0, 0⟩ 0 (by norm_num)).1⟩

/-- Claim C3: for every radius > 0, goal point and goal heading, `rlr` and
`lrl` return `CirclesTooFarApart` if and only if the Euclidean distance
between the derived start and end circle centers is strictly greater than
`4 × radius`; otherwise they return a `RouteCCC`. -/
theorem c3_rlr_lrl_error_iff (radius : ℝ) (endPoint : Point) (endAngle : ℝ)
    (hr : 0 < radius) :
    (RouteCCC.rlr radius endPoint endAngle = .error .circlesTooFarApart ↔
      centerDist ⟨radius, 0⟩ (endCenterRight radius endPoint endAngle) > 4 * radius) ∧
    (¬ centerDist ⟨radius, 0⟩ (endCenterRight radius endPoint endAngle) > 4 * radius →
      RouteCCC.rlr radius endPoint endAngle = .ok (rlrRoute radius endPoint endAngle)) ∧
    (RouteCCC.lrl radius endPoint endAngle = .error .circlesTooFarApart ↔
      centerDist ⟨-radius, 0⟩ (endCenterLeft radius endPoint endAngle) > 4 * radius) ∧
    (¬ centerDist ⟨-radius, 0⟩ (endCenterLeft radius endPoint endAngle) > 4 * radius →
      RouteCCC.lrl radius endPoint endAngle = .ok (lrlRoute radius endPoint endAngle)) := by
  refine ⟨?_, ?_, ?_, ?_⟩
  · unfold RouteCCC.rlr
    rw [mul_comm 4 radius]
    split_ifs with h <;> simp [h]
  · unfold RouteCCC.rlr
    rw [mul_comm 4 radius]
    split_ifs with h <;> simp [h]
  · unfold RouteCCC.lrl
    rw [mul_comm 4 radius]
    split_ifs with h <;> simp [h]
  · unfold RouteCCC.lrl
    rw [mul_comm 4 radius]
    split_ifs with h <;> simp [h]

/-- Witness for C3 at radius 1, goal `(0, 0)`, heading 0. -/
theorem c3_witness :
    (0 : ℝ) < 1 ∧
    (RouteCCC.rlr 1 ⟨0, 0⟩ 0 = .error .circlesTooFarApart ↔
      centerDist ⟨1, 0⟩ (endCenterRight 1 ⟨0, 0⟩ 0) > 4 * 1) :=
  ⟨by norm_num, (c3_rlr_lrl_error_iff 1 ⟨0, 0⟩ 0 (by norm_num)).1⟩

/-- Claim C4: for every radius > 0, goal point and goal heading, `rsr` and
`lsl` never return an error: they always return `Ok` with a constructed
`RouteCSC`. -/
theorem c4_rsr_lsl_total (radius : ℝ) (endPoint : Point) (endAngle : ℝ)
    (hr : 0 < radius) :
    RouteCSC.rsr radius endPoint endAngle = .ok (rsrRoute radius endPoint endAngle) ∧
    RouteCSC.lsl radius endPoint endAngle = .ok (lslRoute radius endPoint endAngle) :=
  ⟨rfl, rfl⟩

/-- Witness for C4 at radius 1, goal `(0, 0)`, heading 0. -/
theorem c4_witness :
    (0 : ℝ) < 1 ∧
    RouteCSC.rsr 1 ⟨0, 0⟩ 0 = .ok (rsrRoute 1 ⟨0, 0⟩ 0) ∧
    RouteCSC.lsl 1 ⟨0, 0⟩ 0 = .ok (lslRoute 1 ⟨0, 0⟩ 0) :=
  ⟨by norm_num, c4_rsr_lsl_total 1 ⟨0, 0⟩ 0 (by norm_num)⟩

/-- Claim C5: for every radius > 0, goal point and goal heading, the
top-level `get_shortest` never fails or panics: `RouteCSC::get_shortest`
always returns `Ok`, so the `.unwrap()` calls inside `get_shortest`
(line 712) and inside `RouteCSC::get_shortest` (lines 471-472, both on
`rsr` results) never hit their error branches. -/
theorem c5_never_fails (radius : ℝ) (endPoint : Point) (endAngle : ℝ)
    (hr : 0 < radius) :
    isOkE (RouteCSC.rsr radius endPoint endAngle) = true ∧
    isOkE (RouteCSC.getShortest radius endPoint endAngle) = true :=
  ⟨rfl, rfl⟩

/-- Witness for C5 at radius 1, goal `(0, 0)`, heading 0. -/
theorem c5_witness :
    (0 : ℝ) < 1 ∧
    isOkE (RouteCSC.rsr 1 ⟨0, 0⟩ 0) = true ∧
    isOkE (RouteCSC.getShortest 1 ⟨0, 0⟩ 0) = true :=
  ⟨by norm_num, c5_never_fails 1 ⟨0, 0⟩ 0 (by norm_num)⟩

/-- Claim C9: the computation is deterministic and stateless — two
invocations of the top-level function and of each of the six builders on
identical inputs return identical outputs. -/
theorem c9_deterministic (r1 : ℝ) (p1 : Point) (e1 : ℝ) (r2 : ℝ) (p2 : Point) (e2 : ℝ)
    (hr : r1 = r2) (hp : p1 = p2) (he : e1 = e2) :
    getShortest r1 p1 e1 = getShortest r2 p2 e2 ∧
    RouteCSC.rsr r1 p1 e1 = RouteCSC.rsr r2 p2 e2 ∧
    RouteCSC.lsl r1 p1 e1 = RouteCSC.lsl r2 p2 e2 ∧
    RouteCSC.rsl r1 p1 e1 = RouteCSC.rsl r2 p2 e2 ∧
    RouteCSC.lsr r1 p1 e1 = RouteCSC.lsr r2 p2 e2 ∧
    RouteCCC.rlr r1 p1 e1 = RouteCCC.rlr r2 p2 e2 ∧
    RouteCCC.lrl r1 p1 e1 = RouteCCC.lrl r2 p2 e2 := by
  subst hr hp he
  exact ⟨rfl, rfl, rfl, rfl, rfl, rfl, rfl⟩

/-- Witness for C9: two invocations at radius 1, goal `(0, 0)`, heading 0. -/
theorem c9_witness :
    getShortest 1 ⟨0, 0⟩ 0 = getShortest 1 ⟨0, 0⟩ 0 ∧
    RouteCSC.rsr 1 ⟨0, 0⟩ 0 = RouteCSC.rsr 1 ⟨0, 0⟩ 0 ∧
    RouteCSC.lsl 1 ⟨0, 0⟩ 0 = RouteCSC.lsl 1 ⟨0, 0⟩ 0 ∧
    RouteCSC.rsl 1 ⟨0, 0⟩ 0 = RouteCSC.rsl 1 ⟨0, 0⟩ 0 ∧
    RouteCSC.lsr 1 ⟨0, 0⟩ 0 = RouteCSC.lsr 1 ⟨0, 0⟩ 0 ∧
    RouteCCC.rlr 1 ⟨0, 0⟩ 0 = RouteCCC.rlr 1 ⟨0, 0⟩ 0 ∧
    RouteCCC.lrl 1 ⟨0, 0⟩ 0 = RouteCCC.lrl 1 ⟨0, 0⟩ 0 :=
  c9_deterministic 1 ⟨0, 0⟩ 0 1 ⟨0, 0⟩ 0 rfl rfl rfl

/-- Claim C6: for every successfully constructed route, the total length is
the sum of its segment lengths, each arc length is its sweep angle times its
radius, and every stored sweep angle lies in `[0, 2π)`. -/
theorem c6_length_decomposition (radius : ℝ) (endPoint : Point) (endAngle : ℝ) :
    (∀ rt : RouteCSC,
      (RouteCSC.rsr radius endPoint endAngle = .ok rt ∨
       RouteCSC.lsl radius endPoint endAngle = .ok rt ∨
       RouteCSC.rsl radius endPoint endAngle = .ok rt ∨
       RouteCSC.lsr radius endPoint endAngle = .ok rt) →
      rt.getLength = rt.start.angle * rt.start.radius + rt.tangent.vector.length +
        rt.finish.angle * rt.finish.radius ∧
      (0 ≤ rt.start.angle ∧ rt.start.angle < 2 * π) ∧
      (0 ≤ rt.finish.angle ∧ rt.finish.angle < 2 * π)) ∧
    (∀ rt : RouteCCC,
      (RouteCCC.rlr radius endPoint endAngle = .ok rt ∨
       RouteCCC.lrl radius endPoint endAngle = .ok rt) →
      rt.getLength = rt.start.angle * rt.start.radius + rt.middle.angle * rt.middle.radius +
        rt.finish.angle * rt.finish.radius ∧
      (0 ≤ rt.start.angle ∧ rt.start.angle < 2 * π) ∧
      (0 ≤ rt.middle.angle ∧ rt.middle.angle < 2 * π) ∧
      (0 ≤ rt.finish.angle ∧ rt.finish.angle < 2 * π)) := by
  constructor
  · rintro rt (h | h | h | h)
    · simp only [RouteCSC.rsr, Except.ok.injEq] at h
      subst h
      exact ⟨rfl, positive_mem _, positive_mem _⟩
    · simp only [RouteCSC.lsl, Except.ok.injEq] at h
      subst h
      exact ⟨rfl, positive_mem _, positive_mem _⟩
    · unfold RouteCSC.rsl at h
      split_ifs at h
      simp only [Except.ok.injEq] at h
      subst h
      exact ⟨rfl, positive_mem _, positive_mem _⟩
    · unfold RouteCSC.lsr at h
      split_ifs at h
      simp only [Except.ok.injEq] at h
      subst h
      exact ⟨rfl, positive_mem _, positive_mem _⟩
  · rintro rt (h | h)
    · unfold RouteCCC.rlr at h
      split_ifs at h
      simp only [Except.ok.injEq] at h
      subst h
      exact ⟨rfl, positive_mem _, positive_mem _, positive_mem _⟩
    · unfold RouteCCC.lrl at h
      split_ifs at h
      simp only [Except.ok.injEq] at h
      subst h
      exact ⟨rfl, positive_mem _, positive_mem _, positive_mem _⟩

/-- Witness for C6: the RSR and RLR routes at radius 1, goal `(0, 0)`,
heading 0. -/
theorem c6_witness :
    ((rsrRoute 1 ⟨0, 0⟩ 0).getLength =
        (rsrRoute 1 ⟨0, 0⟩ 0).start.angle * (rsrRoute 1 ⟨0, 0⟩ 0).start.radius +
        (rsrRoute 1 ⟨0, 0⟩ 0).tangent.vector.length +
        (rsrRoute 1 ⟨0, 0⟩ 0).finish.angle * (rsrRoute 1 ⟨0, 0⟩ 0).finish.radius ∧
      (0 ≤ (rsrRoute 1 ⟨0, 0⟩ 0).start.angle ∧ (rsrRoute 1 ⟨0, 0⟩ 0).start.angle < 2 * π) ∧
      (0 ≤ (rsrRoute 1 ⟨0, 0⟩ 0).finish.angle ∧ (rsrRoute 1 ⟨0, 0⟩ 0).finish.angle < 2 * π)) ∧
    ((rlrRoute 1 ⟨0, 0⟩ 0).getLength =
        (rlrRoute 1 ⟨0, 0⟩ 0).start.angle * (rlrRoute 1 ⟨0, 0⟩ 0).start.radius +
        (rlrRoute 1 ⟨0, 0⟩ 0).middle.angle * (rlrRoute 1 ⟨0, 0⟩ 0).middle.radius +
        (rlrRoute 1 ⟨0, 0⟩ 0).finish.angle * (rlrRoute 1 ⟨0, 0⟩ 0).finish.radius ∧
      (0 ≤ (rlrRoute 1 ⟨0, 0⟩ 0).start.angle ∧ (rlrRoute 1 ⟨0, 0⟩ 0).start.angle < 2 * π) ∧
      (0 ≤ (rlrRoute 1 ⟨0, 0⟩ 0).middle.angle ∧ (rlrRoute 1 ⟨0, 0⟩ 0).middle.angle < 2 * π) ∧
      (0 ≤ (rlrRoute 1 ⟨0, 0⟩ 0).finish.angle ∧ (rlrRoute 1 ⟨0, 0⟩ 0).finish.angle < 2 * π)) := by
  constructor
  · exact (c6_length_decomposition 1 ⟨0, 0⟩ 0).1 (rsrRoute 1 ⟨0, 0⟩ 0) (Or.inl rfl)
  · refine (c6_length_decomposition 1 ⟨0, 0⟩ 0).2 (rlrRoute 1 ⟨0, 0⟩ 0) (Or.inl ?_)
    unfold RouteCCC.rlr
    rw [if_neg]
    push_neg
    have hc : centerDist ⟨1, 0⟩ (endCenterRight 1 ⟨0, 0⟩ 0) = 0 := by
      simp [centerDist, endCenterRight, rotTransform, Point.addVec]
    rw [hc]
    norm_num

/-- Claim C10: the feasibility boundaries are inclusive on the success
side. At center distance exactly `2 × radius`, `rsl` and `lsr` succeed with
a zero-length tangent; at center distance exactly `4 × radius`, `rlr` and
`lrl` succeed with the middle circle center on the line through the two
outer centers (stated as a vanishing cross product with the start center). -/
theorem c10_boundary_inclusive (radius : ℝ) (endPoint : Point) (endAngle : ℝ)
    (hr : 0 < radius) :
    (centerDist ⟨radius, 0⟩ (endCenterLeft radius endPoint endAngle) = 2 * radius →
      RouteCSC.rsl radius endPoint endAngle = .ok (rslRoute radius endPoint endAngle) ∧
      (rslRoute radius endPoint endAngle).tangent.vector.length = 0) ∧
    (centerDist ⟨-radius, 0⟩ (endCenterRight radius endPoint endAngle) = 2 * radius →
      RouteCSC.lsr radius endPoint endAngle = .ok (lsrRoute radius endPoint endAngle) ∧
      (lsrRoute radius endPoint endAngle).tangent.vector.length = 0) ∧
    (centerDist ⟨radius, 0⟩ (endCenterRight radius endPoint endAngle) = 4 * radius →
      RouteCCC.rlr radius endPoint endAngle = .ok (rlrRoute radius endPoint endAngle) ∧
      ((rlrRoute radius endPoint endAngle).middle.center.y - 0) *
        ((endCenterRight radius endPoint endAngle).x - radius) =
      ((rlrRoute radius endPoint endAngle).middle.center.x - radius) *
        ((endCenterRight radius endPoint endAngle).y - 0)) ∧
    (centerDist ⟨-radius, 0⟩ (endCenterLeft radius endPoint endAngle) = 4 * radius →
      RouteCCC.lrl radius endPoint endAngle = .ok (lrlRoute radius endPoint endAngle) ∧
      ((lrlRoute radius endPoint endAngle).middle.center.y - 0) *
        ((endCenterLeft radius endPoint endAngle).x - (-radius)) =
      ((lrlRoute radius endPoint endAngle).middle.center.x - (-radius)) *
        ((endCenterLeft radius endPoint endAngle).y - 0)) := by
  refine ⟨?_, ?_, ?_, ?_⟩
  · intro hd
    constructor
    · unfold RouteCSC.rsl
      rw [if_neg]
      rw [hd, mul_comm]
      exact lt_irrefl _
    · have hS : ((endCenterLeft radius endPoint endAngle).x - radius) ^ 2 +
          ((endCenterLeft radius endPoint endAngle).y - 0) ^ 2 - (radius * 2) ^ 2 = 0 := by
        have hnn : (0:ℝ) ≤ ((endCenterLeft radius endPoint endAngle).x - radius) ^ 2 +
            ((endCenterLeft radius endPoint endAngle).y - 0) ^ 2 := by positivity
        have h2 := Real.sq_sqrt hnn
        have hd2 : sqrt (((endCenterLeft radius endPoint endAngle).x - radius) ^ 2 +
            ((endCenterLeft radius endPoint endAngle).y - 0) ^ 2) = 2 * radius := hd
        rw [hd2] at h2
        rw [← h2]
        ring
      show (fromAngleAndLength _
        (sqrt (((endCenterLeft radius endPoint endAngle).x - radius) ^ 2 +
          ((endCenterLeft radius endPoint endAngle).y - 0) ^ 2 - (radius * 2) ^ 2))).length = 0
      rw [hS, Real.sqrt_zero]
      exact length_fromAngleAndLength _ le_rfl
  · intro hd
    constructor
    · unfold RouteCSC.lsr
      rw [if_neg]
      rw [hd, mul_comm]
      exact lt_irrefl _
    · have hS : ((endCenterRight radius endPoint endAngle).x - -radius) ^ 2 +
          ((endCenterRight radius endPoint endAngle).y - 0) ^ 2 - (radius * 2) ^ 2 = 0 := by
        have hnn : (0:ℝ) ≤ ((endCenterRight radius endPoint endAngle).x - -radius) ^ 2 +
            ((endCenterRight radius endPoint endAngle).y - 0) ^ 2 := by positivity
        have h2 := Real.sq_sqrt hnn
        have hd2 : sqrt (((endCenterRight radius endPoint endAngle).x - -radius) ^ 2 +
            ((endCenterRight radius endPoint endAngle).y - 0) ^ 2) = 2 * radius := hd
        rw [hd2] at h2
        rw [← h2]
        ring
      show (fromAngleAndLength _
        (sqrt (((endCenterRight radius endPoint endAngle).x - -radius) ^ 2 +
          ((endCenterRight radius endPoint endAngle).y - 0) ^ 2 - (radius * 2) ^ 2))).length = 0
      rw [hS, Real.sqrt_zero]
      exact length_fromAngleAndLength _ le_rfl
  · intro hd
    have hd2 : sqrt (((endCenterRight radius endPoint endAngle).x - radius) ^ 2 +
        ((endCenterRight radius endPoint endAngle).y - 0) ^ 2) = 4 * radius := hd
    have hne : ((endCenterRight radius endPoint endAngle).x - radius) ^ 2 +
        ((endCenterRight radius endPoint endAngle).y - 0) ^ 2 ≠ 0 := by
      intro h0
      rw [h0, Real.sqrt_zero] at hd2
      linarith
    constructor
    · unfold RouteCCC.rlr
      rw [if_neg]
      rw [hd, mul_comm]
      simp only [gt_iff_lt]
      exact lt_irrefl _
    · show (0 + radius * 2 * sin (atan2 ((endCenterRight radius endPoint endAngle).y - 0)
          ((endCenterRight radius endPoint endAngle).x - radius) +
          arccos (sqrt (((endCenterRight radius endPoint endAngle).x - radius) ^ 2 +
            ((endCenterRight radius endPoint endAngle).y - 0) ^ 2) / (radius * 4))) - 0) *
          ((endCenterRight radius endPoint endAngle).x - radius) =
        (radius + radius * 2 * cos (atan2 ((endCenterRight radius endPoint endAngle).y - 0)
          ((endCenterRight radius endPoint endAngle).x - radius) +
          arccos (sqrt (((endCenterRight radius endPoint endAngle).x - radius) ^ 2 +
            ((endCenterRight radius endPoint endAngle).y - 0) ^ 2) / (radius * 4))) - radius) *
          ((endCenterRight radius endPoint endAngle).y - 0)
      rw [hd2, mul_comm radius 4, div_self (by positivity), Real.arccos_one, add_zero]
      rw [cos_atan2 _ _ hne, sin_atan2 _ _ hne, hd2]
      field_simp
      ring
  · intro hd
    have hd2 : sqrt (((endCenterLeft radius endPoint endAngle).x - -radius) ^ 2 +
        ((endCenterLeft radius endPoint endAngle).y - 0) ^ 2) = 4 * radius := hd
    have hne : ((endCenterLeft radius endPoint endAngle).x - -radius) ^ 2 +
        ((endCenterLeft radius endPoint endAngle).y - 0) ^ 2 ≠ 0 := by
      intro h0
      rw [h0, Real.sqrt_zero] at hd2
      linarith
    constructor
    · unfold RouteCCC.lrl
      rw [if_neg]
      rw [hd, mul_comm]
      simp only [gt_iff_lt]
      exact lt_irrefl _
    · show (0 + radius * 2 * sin (atan2 ((endCenterLeft radius endPoint endAngle).y - 0)
          ((endCenterLeft radius endPoint endAngle).x - -radius) -
          arccos (sqrt (((endCenterLeft radius endPoint endAngle).x - -radius) ^ 2 +
            ((endCenterLeft radius endPoint endAngle).y - 0) ^ 2) / (radius * 4))) - 0) *
          ((endCenterLeft radius endPoint endAngle).x - -radius) =
        (-radius + radius * 2 * cos (atan2 ((endCenterLeft radius endPoint endAngle).y - 0)
          ((endCenterLeft radius endPoint endAngle).x - -radius) -
          arccos (sqrt (((endCenterLeft radius endPoint endAngle).x - -radius) ^ 2 +
            ((endCenterLeft radius endPoint endAngle).y - 0) ^ 2) / (radius * 4))) - -radius) *
          ((endCenterLeft radius endPoint endAngle).y - 0)
      rw [hd2, mul_comm radius 4, div_self (by positivity), Real.arccos_one]
      rw [show atan2 ((endCenterLeft radius endPoint endAngle).y - 0)
          ((endCenterLeft radius endPoint endAngle).x - -radius) - 0 =
        atan2 ((endCenterLeft radius endPoint endAngle).y - 0)
          ((endCenterLeft radius endPoint endAngle).x - -radius) from sub_zero _]
      rw [cos_atan2 _ _ hne, sin_atan2 _ _ hne, hd2]
      field_simp
      ring

lemma sqrt_four : sqrt (4 : ℝ) = 2 := by
  rw [show (4 : ℝ) = 2 ^ 2 by norm_num, Real.sqrt_sq (by norm_num)]

lemma sqrt_sixteen : sqrt (16 : ℝ) = 4 := by
  rw [show (16 : ℝ) = 4 ^ 2 by norm_num, Real.sqrt_sq (by norm_num)]

/-- Witness for C10: radius 1 with goals `(±4, 0)`, heading 0, giving center
distances exactly `2 × radius` (RSL/LSR) and `4 × radius` (RLR/LRL). -/
theorem c10_witness :
    (centerDist ⟨1, 0⟩ (endCenterLeft 1 ⟨4, 0⟩ 0) = 2 * 1 ∧
     RouteCSC.rsl 1 ⟨4, 0⟩ 0 = .ok (rslRoute 1 ⟨4, 0⟩ 0) ∧
     (rslRoute 1 ⟨4, 0⟩ 0).tangent.vector.length = 0) ∧
    (centerDist ⟨-1, 0⟩ (endCenterRight 1 ⟨-4, 0⟩ 0) = 2 * 1 ∧
     RouteCSC.lsr 1 ⟨-4, 0⟩ 0 = .ok (lsrRoute 1 ⟨-4, 0⟩ 0) ∧
     (lsrRoute 1 ⟨-4, 0⟩ 0).tangent.vector.length = 0) ∧
    (centerDist ⟨1, 0⟩ (endCenterRight 1 ⟨4, 0⟩ 0) = 4 * 1 ∧
     RouteCCC.rlr 1 ⟨4, 0⟩ 0 = .ok (rlrRoute 1 ⟨4, 0⟩ 0)) ∧
    (centerDist ⟨-1, 0⟩ (endCenterLeft 1 ⟨-4, 0⟩ 0) = 4 * 1 ∧
     RouteCCC.lrl 1 ⟨-4, 0⟩ 0 = .ok (lrlRoute 1 ⟨-4, 0⟩ 0)) := by
  have h1 : centerDist ⟨1, 0⟩ (endCenterLeft 1 ⟨4, 0⟩ 0) = 2 * 1 := by
    simp only [centerDist, endCenterLeft, rotTransform, Point.addVec, sub_zero,
      Real.cos_pi, Real.sin_pi]
    norm_num [sqrt_four]
  have h2 : centerDist ⟨-1, 0⟩ (endCenterRight 1 ⟨-4, 0⟩ 0) = 2 * 1 := by
    simp only [centerDist, endCenterRight, rotTransform, Point.addVec, neg_zero,
      Real.cos_zero, Real.sin_zero]
    norm_num [sqrt_four]
  have h3 : centerDist ⟨1, 0⟩ (endCenterRight 1 ⟨4, 0⟩ 0) = 4 * 1 := by
    simp only [centerDist, endCenterRight, rotTransform, Point.addVec, neg_zero,
      Real.cos_zero, Real.sin_zero]
    norm_num [sqrt_sixteen]
  have h4 : centerDist ⟨-1, 0⟩ (endCenterLeft 1 ⟨-4, 0⟩ 0) = 4 * 1 := by
    simp only [centerDist, endCenterLeft, rotTransform, Point.addVec, sub_zero,
      Real.cos_pi, Real.sin_pi]
    norm_num [sqrt_sixteen]
  exact ⟨⟨h1, (c10_boundary_inclusive 1 ⟨4, 0⟩ 0 one_pos).1 h1⟩,
    ⟨h2, (c10_boundary_inclusive 1 ⟨-4, 0⟩ 0 one_pos).2.1 h2⟩,
    ⟨h3, ((c10_boundary_inclusive 1 ⟨4, 0⟩ 0 one_pos).2.2.1 h3).1⟩,
    ⟨h4, ((c10_boundary_inclusive 1 ⟨-4, 0⟩ 0 one_pos).2.2.2 h4).1⟩⟩

lemma positive_pi_div_two : positive (π / 2) = π / 2 :=
  positive_eq_self (by positivity) (by nlinarith [pi_pos])

/-- Claim C7: with the goal straight ahead at distance `d > 0` along the
start heading and equal goal heading, RSR and LSL produce zero arc sweeps
and a tangent of length exactly `d`; concretely the RSR route runs from
start circle center `(radius, 0)` with tangent origin `(0, 0)` and tangent
vector `(0, d)` (the start heading direction) to end circle center
`(radius, d)`, which at radius `1/2`, goal `(0, 10)` gives the spec's
values `(0.5, 0)`, length `10`, `(0.5, 10)`. -/
theorem c7_straight_ahead (radius d : ℝ) (hr : 0 < radius) (hd : 0 < d) :
    rsrRoute radius ⟨0, d⟩ 0 =
      ⟨⟨⟨radius, 0⟩, radius, 0⟩, ⟨⟨0, 0⟩, ⟨0, d⟩⟩, ⟨⟨radius, d⟩, radius, 0⟩⟩ ∧
    (rsrRoute radius ⟨0, d⟩ 0).tangent.vector.length = d ∧
    lslRoute radius ⟨0, d⟩ 0 =
      ⟨⟨⟨-radius, 0⟩, radius, 0⟩, ⟨⟨0, 0⟩, ⟨0, d⟩⟩, ⟨⟨-radius, d⟩, radius, 0⟩⟩ ∧
    (lslRoute radius ⟨0, d⟩ 0).tangent.vector.length = d := by
  have hec : endCenterRight radius ⟨0, d⟩ 0 = ⟨radius, d⟩ := by
    simp [endCenterRight, rotTransform, Point.addVec]
  have hecl : endCenterLeft radius ⟨0, d⟩ 0 = ⟨-radius, d⟩ := by
    simp [endCenterLeft, rotTransform, Point.addVec]
  have hsq : sqrt (d ^ 2) = d := Real.sqrt_sq hd.le
  have h1 : rsrRoute radius ⟨0, d⟩ 0 =
      ⟨⟨⟨radius, 0⟩, radius, 0⟩, ⟨⟨0, 0⟩, ⟨0, d⟩⟩, ⟨⟨radius, d⟩, radius, 0⟩⟩ := by
    simp only [rsrRoute, hec]
    simp [lt_self_iff_false, sub_self, sub_zero, atanDiv_pos_zero hd, positive_zero,
      fromAngleAndLength, Point.addVec, rotTransform, hsq]
  have h2 : lslRoute radius ⟨0, d⟩ 0 =
      ⟨⟨⟨-radius, 0⟩, radius, 0⟩, ⟨⟨0, 0⟩, ⟨0, d⟩⟩, ⟨⟨-radius, d⟩, radius, 0⟩⟩ := by
    simp only [lslRoute, hecl]
    simp [lt_self_iff_false, sub_self, sub_zero, atanDiv_pos_zero hd,
      positive_pi_div_two, positive_zero, fromAngleAndLength, Point.addVec,
      rotTransform, abs_of_pos hd, hsq]
  refine ⟨h1, ?_, h2, ?_⟩
  · rw [h1]
    simp [Vec.length]
    norm_num [hsq]
  · rw [h2]
    simp [Vec.length]
    norm_num [hsq]

/-- Witness for C7 at the spec's concrete instance: radius `1/2`, goal
`(0, 10)`, heading 0. -/
theorem c7_witness :
    rsrRoute (1 / 2) ⟨0, 10⟩ 0 =
      ⟨⟨⟨1 / 2, 0⟩, 1 / 2, 0⟩, ⟨⟨0, 0⟩, ⟨0, 10⟩⟩, ⟨⟨1 / 2, 10⟩, 1 / 2, 0⟩⟩ ∧
    (rsrRoute (1 / 2) ⟨0, 10⟩ 0).tangent.vector.length = 10 ∧
    lslRoute (1 / 2) ⟨0, 10⟩ 0 =
      ⟨⟨⟨-(1 / 2), 0⟩, 1 / 2, 0⟩, ⟨⟨0, 0⟩, ⟨0, 10⟩⟩, ⟨⟨-(1 / 2), 10⟩, 1 / 2, 0⟩⟩ ∧
    (lslRoute (1 / 2) ⟨0, 10⟩ 0).tangent.vector.length = 10 :=
  c7_straight_ahead (1 / 2) 10 (by norm_num) (by norm_num)

lemma cos_three_pi_div_two : cos (3 * π / 2) = 0 := by
  rw [show 3 * π / 2 = π + π / 2 by ring, Real.cos_add]
  norm_num [Real.cos_pi, Real.sin_pi, Real.cos_pi_div_two]

lemma sin_three_pi_div_two : sin (3 * π / 2) = -1 := by
  rw [show 3 * π / 2 = π + π / 2 by ring, Real.sin_add]
  norm_num [Real.cos_pi, Real.sin_pi, Real.sin_pi_div_two, Real.cos_pi_div_two]

lemma sqrt_eighteen : sqrt (18 : ℝ) = 3 * sqrt 2 := by
  rw [show (18 : ℝ) = 3 ^ 2 * 2 by norm_num, Real.sqrt_mul (by positivity),
    Real.sqrt_sq (by norm_num)]

lemma ec_right_c1 : endCenterRight 1 ⟨-2, 2⟩ (3 * π / 2) = ⟨-2, 3⟩ := by
  simp only [endCenterRight, rotTransform, Point.addVec, Real.cos_neg, Real.sin_neg,
    cos_three_pi_div_two, sin_three_pi_div_two]
  norm_num

lemma ec_left_c1 : endCenterLeft 1 ⟨-2, 2⟩ (3 * π / 2) = ⟨-2, 1⟩ := by
  simp only [endCenterLeft, rotTransform, Point.addVec]
  rw [show π - 3 * π / 2 = -(π / 2) by ring]
  simp only [Real.cos_neg, Real.sin_neg, Real.cos_pi_div_two, Real.sin_pi_div_two]
  norm_num

lemma rsr_route_c1 : rsrRoute 1 ⟨-2, 2⟩ (3 * π / 2) =
    ⟨⟨⟨1, 0⟩, 1, 7 * π / 4⟩,
     ⟨⟨1, -1⟩, fromAngleAndLength (-(π / 4) + π) (3 * sqrt 2)⟩,
     ⟨⟨-2, 3⟩, 1, 7 * π / 4⟩⟩ := by
  simp only [rsrRoute, ec_right_c1]
  norm_num
  have ha : atanDiv 3 (-3) = -(π / 4) := by
    rw [atanDiv_of_ne (by norm_num), show (3 : ℝ) / (-3) = -1 by norm_num,
      Real.arctan_neg, Real.arctan_one]
  rw [ha, sqrt_eighteen]
  have hp1 : positive (π / 2 - (-(π / 4) + π)) = 7 * π / 4 := by
    rw [show π / 2 - (-(π / 4) + π) = -(π / 4) by ring,
      positive_add_two_pi (by nlinarith [pi_pos]) (by nlinarith [pi_pos])]
    ring
  refine ⟨hp1, ⟨?_, rfl⟩, ?_⟩
  · rw [show π - 3 * π / 2 = -(π / 2) by ring]
    simp only [rotTransform, Point.addVec, Real.cos_neg, Real.sin_neg,
      Real.cos_pi_div_two, Real.sin_pi_div_two]
    norm_num
  · rw [hp1, show 3 * π / 2 - 7 * π / 4 = -(π / 4) by ring,
      positive_add_two_pi (by nlinarith [pi_pos]) (by nlinarith [pi_pos])]
    ring

lemma lsl_route_c1 : lslRoute 1 ⟨-2, 2⟩ (3 * π / 2) =
    ⟨⟨⟨-1, 0⟩, 1, π / 4⟩,
     ⟨⟨-1 + cos (π / 4), sin (π / 4)⟩, fromAngleAndLength (3 * π / 4) (sqrt 2)⟩,
     ⟨⟨-2, 1⟩, 1, 5 * π / 4⟩⟩ := by
  simp only [lslRoute, ec_left_c1]
  norm_num
  have ha : atanDiv 1 (-1) = -(π / 4) := by
    rw [atanDiv_of_ne (by norm_num), show (1 : ℝ) / (-1) = -1 by norm_num,
      Real.arctan_neg, Real.arctan_one]
  rw [ha]
  have h1 : positive (-(π / 4)) = 7 * π / 4 := by
    rw [positive_add_two_pi (by nlinarith [pi_pos]) (by nlinarith [pi_pos])]
    ring
  rw [h1]
  have h2 : positive (7 * π / 4 + π) = 3 * π / 4 := by
    rw [show 7 * π / 4 + π = 11 * π / 4 by ring,
      positive_sub_two_pi (by nlinarith [pi_pos]) (by nlinarith [pi_pos])]
    ring
  rw [h2]
  have h3 : positive (3 * π / 4 - π / 2) = π / 4 := by
    rw [show 3 * π / 4 - π / 2 = π / 4 by ring]
    exact positive_eq_self (by positivity) (by nlinarith [pi_pos])
  rw [h3]
  have h4 : positive (3 * π / 2 - π / 4) = 5 * π / 4 := by
    rw [show 3 * π / 2 - π / 4 = 5 * π / 4 by ring]
    exact positive_eq_self (by positivity) (by nlinarith [pi_pos])
  rw [h4]
  refine ⟨rfl, ⟨?_, rfl⟩, rfl⟩
  simp only [rotTransform, Point.addVec]
  norm_num [Real.cos_pi_div_four, Real.sin_pi_div_four]

/-- Claim C1, counter-evidence: `RouteCSC::get_shortest` invokes the RSR
builder for all four candidates (lib.rs lines 471-474), so it returns the
RSR route on every input; at radius 1, goal `(-2, 2)`, heading `3π/2` the
LSL route is strictly shorter (`3π/2 + √2` versus `7π/2 + 3√2`), so the
selector's result is not the minimum over the four distinct CSC builders. -/
theorem c1_selector_reinvokes_rsr :
    (∀ (radius : ℝ) (endPoint : Point) (endAngle : ℝ),
      RouteCSC.getShortest radius endPoint endAngle =
        .ok (rsrRoute radius endPoint endAngle)) ∧
    (lslRoute 1 ⟨-2, 2⟩ (3 * π / 2)).getLength <
      (rsrRoute 1 ⟨-2, 2⟩ (3 * π / 2)).getLength := by
  constructor
  · intro radius endPoint endAngle
    simp [RouteCSC.getShortest, RouteCSC.rsr, unwrapCSC, lt_self_iff_false]
  · rw [rsr_route_c1, lsl_route_c1]
    simp only [RouteCSC.getLength, CirclePath.getLength]
    rw [length_fromAngleAndLength _ (by positivity : (0 : ℝ) ≤ sqrt 2),
      length_fromAngleAndLength _ (by positivity : (0 : ℝ) ≤ 3 * sqrt 2)]
    nlinarith [pi_pos, Real.sqrt_nonneg 2]

/-- Claim C8, counter-evidence: in the CSC builders the tangent direction is
computed by a single-argument arctangent of the raw ratio `Δy / Δx` plus an
explicit `+π` patch when `Δx < 0` — not by a two-argument arctangent over
`(Δy, Δx)`. At radius 1, goal `(-1, -1)`, heading 0 the center differences
are `Δ = (-1, -1)`, the stored start sweep is built from the patched value
`arctan(1) + π = 5π/4`, while `atan2(-1, -1) = -3π/4` differs from it. -/
theorem c8_single_arg_arctangent :
    (rsrRoute 1 ⟨-1, -1⟩ 0).start.angle =
      positive (π / 2 - (arctan ((-1) / (-1)) + π)) ∧
    arctan ((-1 : ℝ) / (-1)) + π = 5 * π / 4 ∧
    atan2 (-1) (-1) = -(3 * π / 4) ∧
    arctan ((-1 : ℝ) / (-1)) + π ≠ atan2 (-1) (-1) := by
  have hval1 : arctan ((-1 : ℝ) / (-1)) + π = 5 * π / 4 := by
    rw [show ((-1) : ℝ) / (-1) = 1 by norm_num, Real.arctan_one]
    ring
  have hval2 : atan2 (-1) (-1) = -(3 * π / 4) := by
    unfold atan2
    rw [if_neg (by norm_num), if_pos (by norm_num), if_neg (by norm_num)]
    rw [show ((-1) : ℝ) / (-1) = 1 by norm_num, Real.arctan_one]
    ring
  refine ⟨?_, hval1, hval2, ?_⟩
  · have hec : endCenterRight 1 ⟨-1, -1⟩ 0 = ⟨0, -1⟩ := by
      simp [endCenterRight, rotTransform, Point.addVec]
    simp only [rsrRoute, hec]
    norm_num
    rw [atanDiv_of_ne (by norm_num)]
    norm_num
  · rw [hval1, hval2]
    intro h
    nlinarith [pi_pos]

end Dubins
